import Mathlib

/-!
Verification development for the IMAP mail-management repository
(`src/lib/imap.ts`, the connection pool and the OAuth2 helper).

JavaScript strings are modelled as `List Char` (one entry per UTF-16 code
unit; astral-plane surrogate pairs are abstracted to one scalar).  Each
JavaScript regular-expression `replace` from the source is embedded as an
explicit left-to-right scanner with the same leftmost/greedy matching
behaviour, driven by the generic `gsub` loop below.  External library calls
(`Buffer`, the UTF-8 codec, `mailparser`, `Date`) are modelled as total
functions, matching the fact that the code wraps every decode step in
try/catch with a fallback.
-/

/-- The character-class test for the JavaScript regex class `\s`, which is
also the character set removed by `String.prototype.trim`. -/
def isJsSpace (c : Char) : Bool :=
  c = ' ' || c = '\t' || c = '\n' || c.toNat = 13 || c.toNat = 11 || c.toNat = 12 ||
  c.toNat = 0xA0 || c.toNat = 0x1680 || (0x2000 ≤ c.toNat && c.toNat ≤ 0x200A) ||
  c.toNat = 0x2028 || c.toNat = 0x2029 || c.toNat = 0x202F || c.toNat = 0x205F ||
  c.toNat = 0x3000 || c.toNat = 0xFEFF

/-- Model of `String.prototype.trim`. -/
def jsTrim (s : List Char) : List Char :=
  (((s.dropWhile isJsSpace).reverse).dropWhile isJsSpace).reverse

/-- Generic global-replace driver, the model of `String.prototype.replace`
with the `g` flag: scan left to right, at each position try the matcher
(returning a consumed length and a replacement); on a match emit the
replacement and continue after the consumed text, otherwise copy one
character.  All patterns used by the source can only match non-empty text;
a zero-length match is treated as no match. -/
def gsub (m : List Char → Option (Nat × List Char)) : List Char → List Char
  | [] => []
  | c :: cs =>
    match m (c :: cs) with
    | some (n, rep) =>
      if n = 0 then c :: gsub m cs
      else rep ++ gsub m (cs.drop (n - 1))
    | none => c :: gsub m cs
termination_by l => l.length
decreasing_by
  all_goals simp [List.length_drop]
  all_goals omega

/-- Wrap a match-length function as a deleting replacement for `gsub`. -/
def delMatch (m : List Char → Option Nat) : List Char → Option (Nat × List Char) :=
  fun s => (m s).map (fun n => (n, []))

/-- Wrap a match-length function as a replace-by-one-space rule for `gsub`. -/
def spaceMatch (m : List Char → Option Nat) : List Char → Option (Nat × List Char) :=
  fun s => (m s).map (fun n => (n, [' ']))

/-- Case-sensitive literal-prefix match, returning the matched length. -/
def matchLiteral : List Char → List Char → Option Nat
  | [], _ => some 0
  | _ :: _, [] => none
  | p :: ps, c :: cs =>
    if p = c then (matchLiteral ps cs).map (fun n => n + 1) else none

/-- Case-insensitive literal-prefix match (the regex `i` flag). -/
def matchLiteralCI : List Char → List Char → Option Nat
  | [], _ => some 0
  | _ :: _, [] => none
  | p :: ps, c :: cs =>
    if p.toLower = c.toLower then (matchLiteralCI ps cs).map (fun n => n + 1) else none

/-- Length of the maximal prefix run of characters satisfying `p`
(the greedy behaviour of a regex character-class repetition). -/
def classRun (p : Char → Bool) : List Char → Nat
  | [] => 0
  | c :: cs => if p c then classRun p cs + 1 else 0

/-- The character class `[A-Za-z0-9._-]` of the MIME-boundary pattern. -/
def boundaryChar (c : Char) : Bool :=
  c.isAlphanum || c = '.' || c = '_' || c = '-'

/-- One backtracking attempt of `--+[=_]?[A-Za-z0-9._-]+` after `j` leading
dashes: optional `[=_]`, then at least one boundary character. -/
def matchMimeBoundaryAt (j : Nat) (s : List Char) : Option Nat :=
  match s.drop j with
  | [] => none
  | c :: cs =>
    if (c = '=' || c = '_') && decide (1 ≤ classRun boundaryChar cs) then
      some (j + 1 + classRun boundaryChar cs)
    else if 1 ≤ classRun boundaryChar (c :: cs) then
      some (j + classRun boundaryChar (c :: cs))
    else none

/-- Matcher for the source's MIME-boundary pattern `--+[=_]?[A-Za-z0-9._-]+`.
The greedy dash run is tried first; because a dash itself belongs to the
trailing class, JavaScript's backtracking only ever gives back one dash, so
trying `k` then `k - 1` dashes is exhaustive. -/
def matchMimeBoundary (s : List Char) : Option Nat :=
  let k := classRun (fun c => c = '-') s
  if k < 2 then none
  else
    match matchMimeBoundaryAt k s with
    | some n => some n
    | none => if 3 ≤ k then matchMimeBoundaryAt (k - 1) s else none

/-- Matcher for `lit` (case-insensitively) followed by one or more
characters not satisfying `stop` — the shape of the header-stripping
patterns `Content-Type:[^\n]+`, `charset=[^\s;]+`, `boundary=[^\s]+`. -/
def matchHeaderTail (lit : List Char) (stop : Char → Bool) (s : List Char) : Option Nat :=
  match matchLiteralCI lit s with
  | none => none
  | some n =>
    let r := classRun (fun c => !stop c) (s.drop n)
    if 1 ≤ r then some (n + r) else none

/-- Matcher for `lit` (case-insensitively) followed by `[^\]]*\]` — the
shape of the `[image:...]` and `[cid:...]` placeholder patterns. -/
def matchBracketTag (lit : List Char) (s : List Char) : Option Nat :=
  match matchLiteralCI lit s with
  | none => none
  | some n =>
    let r := classRun (fun c => !(c = ']')) (s.drop n)
    match s.drop (n + r) with
    | c :: _ => if c = ']' then some (n + r + 1) else none
    | [] => none

/-- Matcher for `https?:\/\/` (case-sensitive, as in the source). -/
def matchUrlCore (s : List Char) : Option Nat :=
  match matchLiteral ("http".toList) s with
  | none => none
  | some n =>
    let n2 :=
      match s.drop n with
      | c :: _ => if c = 's' then n + 1 else n
      | [] => n
    match matchLiteral ("://".toList) (s.drop n2) with
    | none => none
    | some m => some (n2 + m)

/-- Matcher for `<https?:\/\/[^>]+>`. -/
def matchAngleUrl (s : List Char) : Option Nat :=
  match s with
  | [] => none
  | c :: cs =>
    if c = '<' then
      match matchUrlCore cs with
      | none => none
      | some n =>
        let r := classRun (fun d => !(d = '>')) (cs.drop n)
        if 1 ≤ r then
          match cs.drop (n + r) with
          | d :: _ => if d = '>' then some (1 + n + r + 1) else none
          | [] => none
        else none
    else none

/-- Matcher for the bare-URL pattern `https?:\/\/\S+`. -/
def matchBareUrl (s : List Char) : Option Nat :=
  match matchUrlCore s with
  | none => none
  | some n =>
    let r := classRun (fun c => !isJsSpace c) (s.drop n)
    if 1 ≤ r then some (n + r) else none

/-- Matcher for `&[a-z]+;` with the `i` flag: ampersand, one or more ASCII
letters, then a semicolon. -/
def matchEntity (s : List Char) : Option Nat :=
  match s with
  | [] => none
  | c :: cs =>
    if c = '&' then
      let r := classRun (fun d => d.isAlpha) cs
      if 1 ≤ r then
        match cs.drop r with
        | d :: _ => if d = ';' then some (1 + r + 1) else none
        | [] => none
      else none
    else none

/-- Matcher for the HTML-tag pattern `<[^>]*>`. -/
def matchHtmlTag (s : List Char) : Option Nat :=
  match s with
  | [] => none
  | c :: cs =>
    if c = '<' then
      let r := classRun (fun d => !(d = '>')) cs
      match cs.drop r with
      | d :: _ => if d = '>' then some (1 + r + 1) else none
      | [] => none
    else none

/-- Matcher for the quoted-printable soft line break `=\r?\n`. -/
def matchSoftBreak (s : List Char) : Option Nat :=
  match s with
  | '=' :: c :: cs =>
    if c.toNat = 13 then
      match cs with
      | d :: _ => if d = '\n' then some 3 else none
      | [] => none
    else if c = '\n' then some 2 else none
  | _ => none

/-- Test for a hexadecimal digit, the class `[0-9A-Fa-f]`. -/
def isHexDigit (c : Char) : Bool :=
  c.isDigit || ('A' ≤ c && c ≤ 'F') || ('a' ≤ c && c ≤ 'f')

/-- Numeric value of a hexadecimal digit. -/
def hexVal (c : Char) : Nat :=
  if c.isDigit then c.toNat - 48
  else if 'a' ≤ c then c.toNat - 87
  else c.toNat - 55

/-- Matcher/replacement for `=([0-9A-Fa-f]{2})`, decoding the escape to
`String.fromCharCode(parseInt(hex, 16))`. -/
def matchQPHex (s : List Char) : Option (Nat × List Char) :=
  match s with
  | '=' :: a :: b :: _ =>
    if isHexDigit a && isHexDigit b then
      some (3, [Char.ofNat (16 * hexVal a + hexVal b)])
    else none
  | _ => none

/-- Model of `decodeQuotedPrintable`: first remove soft line breaks, then
decode the `=XX` hex escapes. -/
def decodeQuotedPrintable (text : List Char) : List Char :=
  gsub matchQPHex (gsub (delMatch matchSoftBreak) text)

/-- Test of `/=[0-9A-Fa-f]{2}/` against the whole string (the source's
quoted-printable detection). -/
def containsQP : List Char → Bool
  | [] => false
  | c :: cs => (matchQPHex (c :: cs)).isSome || containsQP cs

/-- The Unicode replacement character emitted for ill-formed UTF-8. -/
def replacementChar : Char := Char.ofNat 0xFFFD

/-- Test for a UTF-8 continuation byte. -/
def isCont (b : Nat) : Bool := 0x80 ≤ b && b ≤ 0xBF

/-- Model of `Buffer.prototype.toString('utf8')`: a total UTF-8 decoder that
replaces each maximal ill-formed subpart with one replacement character and
never fails. -/
def utf8Decode : List Nat → List Char
  | [] => []
  | b :: bs =>
    if b < 0x80 then Char.ofNat b :: utf8Decode bs
    else if 0xC2 ≤ b && b ≤ 0xDF then
      match bs with
      | [] => [replacementChar]
      | b2 :: bs2 =>
        if isCont b2 then
          Char.ofNat ((b - 0xC0) * 0x40 + (b2 - 0x80)) :: utf8Decode bs2
        else replacementChar :: utf8Decode (b2 :: bs2)
    else if 0xE0 ≤ b && b ≤ 0xEF then
      match bs with
      | [] => [replacementChar]
      | b2 :: bs2 =>
        if (if b = 0xE0 then 0xA0 ≤ b2 && b2 ≤ 0xBF
            else if b = 0xED then 0x80 ≤ b2 && b2 ≤ 0x9F
            else isCont b2) then
          match bs2 with
          | [] => [replacementChar]
          | b3 :: bs3 =>
            if isCont b3 then
              Char.ofNat ((b - 0xE0) * 0x1000 + (b2 - 0x80) * 0x40 + (b3 - 0x80)) :: utf8Decode bs3
            else replacementChar :: utf8Decode (b3 :: bs3)
        else replacementChar :: utf8Decode (b2 :: bs2)
    else if 0xF0 ≤ b && b ≤ 0xF4 then
      match bs with
      | [] => [replacementChar]
      | b2 :: bs2 =>
        if (if b = 0xF0 then 0x90 ≤ b2 && b2 ≤ 0xBF
            else if b = 0xF4 then 0x80 ≤ b2 && b2 ≤ 0x8F
            else isCont b2) then
          match bs2 with
          | [] => [replacementChar]
          | b3 :: bs3 =>
            if isCont b3 then
              match bs3 with
              | [] => [replacementChar]
              | b4 :: bs4 =>
                if isCont b4 then
                  Char.ofNat ((b - 0xF0) * 0x40000 + (b2 - 0x80) * 0x1000 +
                    (b3 - 0x80) * 0x40 + (b4 - 0x80)) :: utf8Decode bs4
                else replacementChar :: utf8Decode (b4 :: bs4)
            else replacementChar :: utf8Decode (b3 :: bs3)
        else replacementChar :: utf8Decode (b2 :: bs2)
    else replacementChar :: utf8Decode bs

/-- Model of the `charCodeAt`/`Buffer.from(bytes)` round trip: each UTF-16
code unit is truncated to a byte. -/
def toBytes (s : List Char) : List Nat := s.map (fun c => c.toNat % 256)

/-- The character class `[A-Za-z0-9+/=\s]` of the base64 detection pattern. -/
def isBase64Char (c : Char) : Bool :=
  c.isAlphanum || c = '+' || c = '/' || c = '=' || isJsSpace c

/-- Six-bit value of one base64 alphabet character. -/
def b64Val (c : Char) : Option Nat :=
  if 'A' ≤ c && c ≤ 'Z' then some (c.toNat - 65)
  else if 'a' ≤ c && c ≤ 'z' then some (c.toNat - 71)
  else if c.isDigit then some (c.toNat + 4)
  else if c = '+' then some 62
  else if c = '/' then some 63
  else none

/-- Repack a list of six-bit values into bytes, truncating a trailing
partial byte — the lenient grouping of Node's base64 decoder. -/
def b64Bytes : List Nat → List Nat
  | a :: b :: c :: d :: rest =>
    (a * 4 + b / 16) :: ((b % 16) * 16 + c / 4) :: ((c % 4) * 64 + d) :: b64Bytes rest
  | [a, b] => [a * 4 + b / 16]
  | [a, b, c] => [a * 4 + b / 16, (b % 16) * 16 + c / 4]
  | _ => []

/-- Model of `Buffer.from(text, 'base64')`: decode up to the first padding
sign, never failing. -/
def b64Decode (s : List Char) : List Nat :=
  b64Bytes ((s.takeWhile (fun c => !(c = '='))).filterMap b64Val)

/-- The class `[\x20-\x7E -￿\s]` of the readability check applied
to base64-decoded text. -/
def isReadableChar (c : Char) : Bool :=
  (0x20 ≤ c.toNat && c.toNat ≤ 0x7E) || (0xA0 ≤ c.toNat && c.toNat ≤ 0xFFFF) || isJsSpace c

/-- The soft-hyphen character removed by the final cleanup. -/
def softHyphen : Char := Char.ofNat 0xAD

/-- Model of `cleanSnippet`: strip MIME artifacts, heuristically decode
quoted-printable (with UTF-8 reinterpretation guarded by a
replacement-character plausibility check) and base64 (guarded by an
alphabet test and a printability check), strip placeholders and URLs,
collapse whitespace, trim, and cap the result at 150 characters.  Every
decode step is total; a step whose guard fails keeps the pre-step text. -/
def cleanSnippet (text : List Char) : List Char :=
  let cleaned := gsub (delMatch matchMimeBoundary) text
  let cleaned := gsub (delMatch (matchHeaderTail ("Content-Type:".toList) (fun c => c = '\n'))) cleaned
  let cleaned := gsub (delMatch (matchHeaderTail ("Content-Transfer-Encoding:".toList) (fun c => c = '\n'))) cleaned
  let cleaned := gsub (delMatch (matchHeaderTail ("charset=".toList) (fun c => isJsSpace c || c = ';'))) cleaned
  let cleaned := gsub (delMatch (matchHeaderTail ("boundary=".toList) isJsSpace)) cleaned
  let cleaned :=
    if containsQP cleaned then
      let decoded := decodeQuotedPrintable cleaned
      let utf8Decoded := utf8Decode (toBytes decoded)
      if !utf8Decoded.isEmpty && !((utf8Decoded.take 50).contains replacementChar) then
        utf8Decoded
      else decoded
    else cleaned
  let trimmedText := cleaned.filter (fun c => !isJsSpace c)
  let cleaned :=
    if (!cleaned.isEmpty && cleaned.all isBase64Char) && 20 < trimmedText.length then
      let decoded := utf8Decode (b64Decode trimmedText)
      if !(decoded.take 100).isEmpty && (decoded.take 100).all isReadableChar then decoded
      else cleaned
    else cleaned
  let cleaned := gsub (delMatch (matchBracketTag ("[image:".toList))) cleaned
  let cleaned := gsub (delMatch (matchBracketTag ("[cid:".toList))) cleaned
  let cleaned := gsub (delMatch matchAngleUrl) cleaned
  let cleaned := gsub (delMatch matchBareUrl) cleaned
  let cleaned := cleaned.filter (fun c => !(c = softHyphen))
  let cleaned := gsub (fun s =>
    if 1 ≤ classRun isJsSpace s then some (classRun isJsSpace s, [' ']) else none) cleaned
  (jsTrim cleaned).take 150

/-- The quote characters stripped from display names by `cleanSenderName`. -/
def isQuoteChar (c : Char) : Bool :=
  c.toNat = 34 || c.toNat = 39 || c.toNat = 0x201C || c.toNat = 0x201D ||
  c.toNat = 0x2018 || c.toNat = 0x2019 || c.toNat = 0x300C || c.toNat = 0x300D ||
  c.toNat = 0x300E || c.toNat = 0x300F || c.toNat = 0xAB || c.toNat = 0xBB ||
  c.toNat = 0x2039 || c.toNat = 0x203A

/-- Model of `cleanSenderName`: remove all quote characters and trim. -/
def cleanSenderName (s : List Char) : List Char :=
  jsTrim (s.filter (fun c => !isQuoteChar c))

/-- The HTML preprocessing applied to the raw snippet body before
`cleanSnippet`: tags, `&nbsp;` and entity references each become a space. -/
def stripHtmlArtifacts (s : List Char) : List Char :=
  gsub (spaceMatch matchEntity)
    (gsub (spaceMatch (matchLiteral ("&nbsp;".toList)))
      (gsub (spaceMatch matchHtmlTag) s))

/-!
The mailbox-operations layer (`getEmails`, `searchEmails`, `getEmailByUid`,
`deleteEmails`).  The IMAP server's view of one folder is a `Folder`:
a message count, the fetch response per sequence number (`msg`) and per UID
(`msgByUid`).  A fetch response may carry no attributes record (`attrs =
none`, the case where the `attributes` event never fires) and an attributes
record may carry no UID (`uid = none`). -/

/-- One address of an envelope address list (`name`/`mailbox`/`host`). -/
structure EnvAddress where
  name : Option (List Char)
  mailbox : Option (List Char)
  host : Option (List Char)
deriving DecidableEq

/-- The server-reported BODYSTRUCTURE tree: nested arrays of parts, each
part carrying an optional disposition type and possibly a `name` param. -/
inductive BodyStruct where
  | leaf (dispositionType : Option (List Char)) (paramsName : Bool)
  | arr (parts : List BodyStruct)

/-- The attributes record delivered for one fetched message. -/
structure MsgAttrs where
  uid : Option Nat
  flags : List (List Char)
  envSubject : Option (List Char)
  envFrom : Option (List EnvAddress)
  envTo : Option (List EnvAddress)
  envDate : Option (List Char)
  struct : Option BodyStruct

/-- One fetched message: the optional attributes record and the streamed
content of body part 1. -/
structure FetchedMessage where
  attrs : Option MsgAttrs
  body : List Char

/-- A folder as the server presents it to one `getEmails`/`searchEmails`
call: total message count, and the fetch response by sequence number and
by UID. -/
structure Folder where
  total : Nat
  msg : Nat → FetchedMessage
  msgByUid : Nat → FetchedMessage

/-- The summary record built per message (`EmailSummary` in the source;
`from`/`to` are renamed `fromAddr`/`toAddr` because `from` is a Lean
keyword). -/
structure EmailSummary where
  uid : Nat
  subject : List Char
  fromAddr : List Char
  toAddr : List Char
  date : List Char
  seen : Bool
  hasAttachments : Bool
  snippet : List Char
deriving DecidableEq

/-- The result shape of `getEmails`/`searchEmails`. -/
structure EmailsResult where
  emails : List EmailSummary
  total : Nat
  hasMore : Bool
deriving DecidableEq

mutual

/-- Model of the recursive `checkPart` of `hasAttachmentsFromStruct`: a part
counts as an attachment if its disposition type lowercases to
`attachment` or its params carry a `name`; arrays are searched recursively. -/
def checkPart : BodyStruct → Bool
  | .leaf dt pn =>
    (match dt with
     | some t => decide (t.map Char.toLower = ("attachment".toList))
     | none => false) || pn
  | .arr parts => checkParts parts

/-- Recursive search of a part array by `checkPart`. -/
def checkParts : List BodyStruct → Bool
  | [] => false
  | p :: ps => checkPart p || checkParts ps

end

/-- Model of `hasAttachmentsFromStruct` (false on a missing struct). -/
def hasAttachmentsFromStruct (struct : Option BodyStruct) : Bool :=
  match struct with
  | none => false
  | some s => checkPart s

/-- Model of `formatEnvelopeAddress`: render each address as
`Name <mailbox@host>` (quote-stripped) or `mailbox@host`, drop empties,
join with a comma, and fall back to `Unknown`. -/
def formatEnvelopeAddress (addr : Option (List EnvAddress)) : List Char :=
  match addr with
  | none => "Unknown".toList
  | some l =>
    let addresses := (l.map (fun a =>
      let name := a.name.getD []
      let mailbox := a.mailbox.getD []
      let host := a.host.getD []
      let email := mailbox ++ ("@".toList) ++ host
      if name ≠ [] then cleanSenderName (name ++ (" <".toList) ++ email ++ (">".toList))
      else email)).filter (fun s => !s.isEmpty)
    if addresses.isEmpty then "Unknown".toList
    else List.intercalate (", ".toList) addresses

/-- Build one `EmailSummary` from a delivered attributes record and the
(500-byte-capped) body text, exactly as the per-message `end` handler does:
a missing UID becomes the sentinel `0`, a missing subject becomes
`(No Subject)`, the snippet is the HTML-stripped body run through
`cleanSnippet`.  The `new Date(...).toISOString()` conversion is an
external library call and is modelled as the identity on the delivered
date string, with the current-time fallback abstracted as the empty
string. -/
def mkSummary (a : MsgAttrs) (body : List Char) : EmailSummary :=
  { uid := a.uid.getD 0
    subject := a.envSubject.getD ("(No Subject)".toList)
    fromAddr := formatEnvelopeAddress a.envFrom
    toAddr := formatEnvelopeAddress a.envTo
    date := a.envDate.getD []
    seen := a.flags.contains ("\\Seen".toList)
    hasAttachments := hasAttachmentsFromStruct a.struct
    snippet := cleanSnippet (stripHtmlArtifacts (body.take 500)) }

/-- The final `emails.sort((a, b) => b.uid - a.uid)`: a stable sort by UID
descending. -/
def sortByUidDesc (l : List EmailSummary) : List EmailSummary :=
  l.mergeSort (fun x y => decide (y.uid ≤ x.uid))

/-- The sequence-range end `Math.max(1, totalMessages - offset)`. -/
def seqEnd (total offset : Nat) : Nat := max 1 (total - offset)

/-- The sequence-range start `Math.max(1, end - limit + 1)`. -/
def seqStart (total limit offset : Nat) : Nat :=
  max 1 (seqEnd total offset - limit + 1)

/-- The sequence set denoted by the fetch range string `s:e` (RFC 3501
makes the endpoint order immaterial). -/
def seqRange (s e : Nat) : List Nat :=
  List.range' (min s e) (max s e + 1 - min s e)

/-- The sequence numbers fetched by one `getEmails` call, mirroring its
branch structure (empty folder, invalid computed range, or the range). -/
def fetchSeqs (total limit offset : Nat) : List Nat :=
  if total = 0 then []
  else if seqEnd total offset < 1 ∨ seqStart total limit offset > total then []
  else seqRange (seqStart total limit offset) (seqEnd total offset)

/-- Model of `getEmails`: open the folder read-only; if empty, return the
empty result; compute the backwards sequence range; if it is invalid,
return empty with the correct total; otherwise fetch the range, build a
summary for every message that delivered attributes (a message without
attributes is skipped), sort by UID descending, and report
`hasMore = start > 1`. -/
def getEmails (f : Folder) (limit offset : Nat) : EmailsResult :=
  if f.total = 0 then ⟨[], 0, false⟩
  else if seqEnd f.total offset < 1 ∨ seqStart f.total limit offset > f.total then
    ⟨[], f.total, false⟩
  else
    ⟨sortByUidDesc ((seqRange (seqStart f.total limit offset) (seqEnd f.total offset)).filterMap
        (fun i => ((f.msg i).attrs).map (fun a => mkSummary a (f.msg i).body))),
      f.total, decide (seqStart f.total limit offset > 1)⟩

/-- The search match IDs sorted descending, `[...results].sort((a, b) => b - a)`. -/
def sortDescNat (l : List Nat) : List Nat :=
  l.mergeSort (fun a b => decide (b ≤ a))

/-- The page of match IDs actually fetched by `searchEmails`:
sort descending, then `slice(offset, offset + limit)`; empty when the
search returned nothing. -/
def searchPage (results : List Nat) (limit offset : Nat) : List Nat :=
  if results.isEmpty then []
  else ((sortDescNat results).drop offset).take limit

/-- Model of `processSearchResults`: empty results give an empty result
with total 0; otherwise sort descending, paginate before fetching, return
early when the page is empty, else fetch exactly the page, build summaries
for the messages that delivered attributes, and sort by UID descending.
`hasMore` is `offset + limit < totalResults` computed before the early
return. -/
def processSearchResults (f : Folder) (limit offset : Nat) (results : List Nat) : EmailsResult :=
  if results.isEmpty then ⟨[], 0, false⟩
  else
    let totalResults := (sortDescNat results).length
    let paginated := ((sortDescNat results).drop offset).take limit
    let hasMore := decide (offset + limit < totalResults)
    if paginated.isEmpty then ⟨[], totalResults, false⟩
    else
      ⟨sortByUidDesc (paginated.filterMap
          (fun u => ((f.msgByUid u).attrs).map (fun a => mkSummary a (f.msgByUid u).body))),
        totalResults, hasMore⟩

/-- Model of `searchEmails`: an empty folder short-circuits to the empty
result; otherwise the server's match list (`results`, the IDs returned by
the SUBJECT search or its TEXT fallback) is processed by
`processSearchResults`. -/
def searchEmails (f : Folder) (limit offset : Nat) (results : List Nat) : EmailsResult :=
  if f.total = 0 then ⟨[], 0, false⟩
  else processSearchResults f limit offset results

/-- The UID sequence of a result list. -/
def resultUids (r : EmailsResult) : List Nat :=
  r.emails.map (fun s => s.uid)

/-!
The connection pool (`ImapConnectionPool`).  The pool bucket of one
`SessionKey` is modelled as a state.  Node runs each handler on one
thread, so every synchronous stretch of `acquire`/`release`/`cleanup`
(and the waiter timeout) is one atomic transition on the bucket; the one
suspension point inside `acquire` is `await this.createConnection(config)`,
which sits between the cap check and the `pool.push` registration.  That
path is therefore modelled twice: `acquireStep` is the uninterleaved
composition (its `created` branch runs check, creation and registration
with nothing scheduled in between), while `acquireBeginStep` /
`createResolveStep` split the call at the await, so that the interleaving
of two concurrent acquires is expressible.  Times are `Date.now()` values
modelled as integers. -/

/-- The idle timeout (`maxIdleTime`, 60 seconds in milliseconds). -/
def maxIdleTime : Int := 60000

/-- The maximum session age (`maxConnectionAge`, 5 minutes in milliseconds). -/
def maxConnectionAge : Int := 300000

/-- The per-key session cap (`maxConnectionsPerKey`). -/
def maxConnectionsPerKey : Nat := 2

/-- One pooled connection: the underlying IMAP handle is abstracted to a
numeric `id`. -/
structure PooledConnection where
  id : Nat
  inUse : Bool
  lastUsed : Int
  createdAt : Int
deriving DecidableEq

/-- The bucket state for one key: the connection list, the FIFO waiter
queue (waiters abstracted to numeric ids), and the next fresh handle id. -/
structure PoolState where
  pool : List PooledConnection
  waiters : List Nat
  nextId : Nat
deriving DecidableEq

/-- The empty bucket. -/
def initPoolState : PoolState := ⟨[], [], 0⟩

/-- Model of `isConnectionValid`: not too old, and (busy or not idle for
too long). -/
def isConnectionValid (now : Int) (c : PooledConnection) : Bool :=
  if now - c.createdAt > maxConnectionAge then false
  else if !c.inUse && decide (now - c.lastUsed > maxIdleTime) then false
  else true

/-- The scan of `acquire` over the bucket: mark the first idle valid
connection busy (timestamping it) and return its id. -/
def tryReuse (now : Int) : List PooledConnection → Option (List PooledConnection × Nat)
  | [] => none
  | c :: rest =>
    if !c.inUse && isConnectionValid now c then
      some ({ c with inUse := true, lastUsed := now } :: rest, c.id)
    else
      match tryReuse now rest with
      | some (rest2, i) => some (c :: rest2, i)
      | none => none

/-- How one `acquire` call resolved: an idle connection was reused, a fresh
connection was created, or the caller was queued as a waiter. -/
inductive AcquireOutcome where
  | reused (id : Nat)
  | created (id : Nat)
  | queued (w : Nat)
deriving DecidableEq

/-- Model of `acquire` for waiter `w` at time `now`, run without
interleaving: reuse an idle valid connection if one exists; else if the
number of valid connections is below the per-key cap, create a fresh busy
connection and register it; else append `w` to the waiter queue.  The
reuse and queue branches are synchronous in the source and hence atomic;
the created branch compresses the check — `await createConnection` —
`push` sequence into one step, which is faithful only when no other
acquire runs during the await (see `acquireBeginStep` /
`createResolveStep` for the decomposed form). -/
def acquireStep (now : Int) (w : Nat) (st : PoolState) : PoolState × AcquireOutcome :=
  match tryReuse now st.pool with
  | some (pool2, i) => ({ st with pool := pool2 }, .reused i)
  | none =>
    if (st.pool.filter (isConnectionValid now)).length < maxConnectionsPerKey then
      ({ st with pool := st.pool ++ [⟨st.nextId, true, now, now⟩], nextId := st.nextId + 1 },
        .created st.nextId)
    else
      ({ st with waiters := st.waiters ++ [w] }, .queued w)

/-- How one `release` call resolved: the connection went idle, it was
handed to the oldest waiter, or it was not in the pool. -/
inductive ReleaseOutcome where
  | madeIdle
  | handed (w : Nat) (id : Nat)
  | notFound
deriving DecidableEq

/-- Update the first connection with the given id, setting its busy flag
and timestamping it — the in-place mutation done by `release`. -/
def setConn (id : Nat) (inUse : Bool) (now : Int) : List PooledConnection → List PooledConnection
  | [] => []
  | c :: rest =>
    if c.id = id then { c with inUse := inUse, lastUsed := now } :: rest
    else c :: setConn id inUse now rest

/-- Model of `release` at time `now`: find the connection, mark it idle and
timestamp it; if a waiter is queued, immediately hand the connection to the
oldest waiter, keeping it busy. -/
def releaseStep (now : Int) (id : Nat) (st : PoolState) : PoolState × ReleaseOutcome :=
  if st.pool.any (fun c => c.id == id) then
    match st.waiters with
    | w :: ws => ({ st with pool := setConn id true now st.pool, waiters := ws }, .handed w id)
    | [] => ({ st with pool := setConn id false now st.pool }, .madeIdle)
  else (st, .notFound)

/-- Model of the periodic `cleanup` sweep: drop (close) every invalid
connection. -/
def cleanupStep (now : Int) (st : PoolState) : PoolState :=
  { st with pool := st.pool.filter (isConnectionValid now) }

/-- Model of the waiter timeout: remove the waiter from the queue. -/
def waiterTimeoutStep (w : Nat) (st : PoolState) : PoolState :=
  { st with waiters := st.waiters.erase w }

/-- The events that mutate one key's bucket. -/
inductive PoolEvent where
  | acquire (now : Int) (w : Nat)
  | release (now : Int) (id : Nat)
  | cleanup (now : Int)
  | waiterTimeout (now : Int) (w : Nat)

/-- The wall-clock time of an event. -/
def PoolEvent.time : PoolEvent → Int
  | .acquire now _ => now
  | .release now _ => now
  | .cleanup now => now
  | .waiterTimeout now _ => now

/-- One atomic transition of the bucket. -/
def poolStep (st : PoolState) (e : PoolEvent) : PoolState :=
  match e with
  | .acquire now w => (acquireStep now w st).1
  | .release now id => (releaseStep now id st).1
  | .cleanup now => cleanupStep now st
  | .waiterTimeout _ w => waiterTimeoutStep w st

/-- The number of live (valid) pooled connections at time `now`. -/
def liveCount (now : Int) (st : PoolState) : Nat :=
  (st.pool.filter (isConnectionValid now)).length

/-- How the synchronous prefix of one `acquire` call (everything up to the
`await createConnection` suspension point) ends: an idle connection was
reused and returned, the cap check passed and the caller suspended in
`createConnection`, or the caller was queued as a waiter. -/
inductive AcquireBegin where
  | reused (id : Nat)
  | awaitingCreate
  | queued (w : Nat)
deriving DecidableEq

/-- The synchronous prefix of `acquire` for waiter `w` at time `now`:
scan for an idle valid connection and return it, else run the cap check.
A passed cap check touches nothing — the new connection is registered only
after the `await createConnection(config)` resolves — so the bucket is
unchanged while the caller is suspended, and a second concurrent
`acquire` sees the same counts.  A failed cap check queues the caller. -/
def acquireBeginStep (now : Int) (w : Nat) (st : PoolState) : PoolState × AcquireBegin :=
  match tryReuse now st.pool with
  | some (pool2, i) => ({ st with pool := pool2 }, .reused i)
  | none =>
    if (st.pool.filter (isConnectionValid now)).length < maxConnectionsPerKey then
      (st, .awaitingCreate)
    else
      ({ st with waiters := st.waiters ++ [w] }, .queued w)

/-- The resumption of an `acquire` whose `createConnection` await resolved
at time `now`: push the fresh busy connection into the (shared) bucket
array and return its handle — the `pool.push` / `connections.set` that the
source runs after the await, with no re-check of the cap. -/
def createResolveStep (now : Int) (st : PoolState) : PoolState × Nat :=
  ({ st with pool := st.pool ++ [⟨st.nextId, true, now, now⟩], nextId := st.nextId + 1 },
    st.nextId)

/-!
The remaining operations: `deleteEmails` and `getEmailByUid`. -/

/-- The protocol commands `deleteEmails` can issue after connecting. -/
inductive ImapCommand where
  | openBox (folder : List Char) (readOnly : Bool)
  | addFlags (uids : List Nat) (flag : List Char)
  | expunge
deriving DecidableEq

deriving instance DecidableEq for Except

/-- The observable outcome of one `deleteEmails` call: how its promise
settled, and the protocol commands it issued. -/
structure DeleteRun where
  result : Except (List Char) Bool
  commands : List ImapCommand
deriving DecidableEq

/-- Model of `deleteEmails`: open the folder read-write (failing rejects);
an empty UID list resolves `true` immediately; otherwise set the
`\Deleted` flag on all UIDs in one batch and expunge, rejecting on either
failure.  The server's answers to the three commands are the three error
parameters. -/
def deleteEmails (folder : List Char) (uids : List Nat)
    (openErr flagErr expungeErr : Option (List Char)) : DeleteRun :=
  match openErr with
  | some e => ⟨.error e, [.openBox folder false]⟩
  | none =>
    if uids.length = 0 then ⟨.ok true, [.openBox folder false]⟩
    else
      match flagErr with
      | some e => ⟨.error e, [.openBox folder false, .addFlags uids ("\\Deleted".toList)]⟩
      | none =>
        match expungeErr with
        | some e =>
          ⟨.error e, [.openBox folder false, .addFlags uids ("\\Deleted".toList), .expunge]⟩
        | none =>
          ⟨.ok true, [.openBox folder false, .addFlags uids ("\\Deleted".toList), .expunge]⟩

/-- One attachment as `mailparser` reports it. -/
structure ParsedAttachment where
  filename : Option (List Char)
  contentType : Option (List Char)
  size : Nat

/-- The output shape of `simpleParser` (the external MIME parser), as far
as `getEmailByUid` consumes it. -/
structure ParsedMailModel where
  subject : Option (List Char)
  fromText : Option (List Char)
  toTexts : Option (List (List Char))
  dateIso : Option (List Char)
  html : Option (List Char)
  text : Option (List Char)
  attachments : List ParsedAttachment

/-- The detail record built by `getEmailByUid` (`EmailDetail`). -/
structure EmailDetail where
  uid : Nat
  subject : List Char
  fromAddr : List Char
  toAddr : List Char
  date : List Char
  seen : Bool
  hasAttachments : Bool
  snippet : List Char
  html : Option (List Char)
  text : Option (List Char)
  attachments : List (List Char × List Char × Nat)

/-- The raw-message fetch response for one UID: the streamed body chunks
(bytes) and the flags delivered with the attributes. -/
structure RawMessage where
  chunks : List (List Nat)
  flags : List (List Char)

/-- Build the `EmailDetail` from the parsed mail, mirroring the happy-path
construction: placeholder subject, quote-stripped sender, comma-joined
recipients, attachment defaults, and a snippet from the plain-text body. -/
def mkDetail (uid : Nat) (flags : List (List Char)) (p : ParsedMailModel) : EmailDetail :=
  { uid := uid
    subject := p.subject.getD ("(No Subject)".toList)
    fromAddr := cleanSenderName (p.fromText.getD ("Unknown".toList))
    toAddr :=
      match p.toTexts with
      | none => "Unknown".toList
      | some ts => List.intercalate (", ".toList) ts
    date := p.dateIso.getD []
    seen := flags.contains ("\\Seen".toList)
    hasAttachments := decide (p.attachments.length > 0)
    snippet := cleanSnippet (p.text.getD [])
    html := p.html
    text := p.text
    attachments := p.attachments.map (fun a =>
      (a.filename.getD ("unknown".toList),
        a.contentType.getD ("application/octet-stream".toList), a.size)) }

/-- Model of `getEmailByUid`: fetch the one UID; if the server delivered no
message content (the accumulated `emailContent` is empty) resolve `null`;
otherwise parse the concatenated raw bytes with the external parser
(`parse`), rejecting if it throws, and build the detail. -/
def getEmailByUid (parse : List Nat → Except (List Char) ParsedMailModel)
    (server : Nat → Option RawMessage) (uid : Nat) :
    Except (List Char) (Option EmailDetail) :=
  let chunks := match server uid with | none => [] | some m => m.chunks
  if chunks.isEmpty then .ok none
  else
    match parse chunks.flatten with
    | .error e => .error e
    | .ok p =>
      .ok (some (mkDetail uid
        (match server uid with | none => [] | some m => m.flags) p))

/-!
Concrete fixtures used by counterexamples and witnesses. -/

/-- An attributes record carrying only a UID (everything else absent). -/
def blankAttrs (u : Option Nat) : MsgAttrs := ⟨u, [], none, none, none, none, none⟩

/-- A folder with 120 messages whose UIDs equal their sequence numbers. -/
def exListFolder : Folder :=
  ⟨120, fun i => ⟨some (blankAttrs (some i)), []⟩, fun _ => ⟨none, []⟩⟩

/-- A folder with a single message (UID 7). -/
def exOneFolder : Folder :=
  ⟨1, fun _ => ⟨some (blankAttrs (some 7)), []⟩, fun _ => ⟨none, []⟩⟩

/-- A folder with three messages: the first delivers no attributes record at
all, the other two deliver attributes without a UID. -/
def exDupFolder : Folder :=
  ⟨3, fun i => if i = 1 then ⟨none, []⟩ else ⟨some (blankAttrs none), []⟩, fun _ => ⟨none, []⟩⟩

/-- A folder with two messages with distinct UIDs 3 and 6. -/
def exTwoFolder : Folder :=
  ⟨2, fun i => ⟨some (blankAttrs (some (3 * i))), []⟩, fun _ => ⟨none, []⟩⟩

/-- A five-message folder whose UID-fetch responses echo the requested UID. -/
def exSearchFolder : Folder :=
  ⟨5, fun _ => ⟨none, []⟩, fun u => ⟨some (blankAttrs (some u)), []⟩⟩

/-- A bucket holding one busy valid connection, as left by a single
`acquire` at time 0 on an empty pool. -/
def racedSt0 : PoolState := (acquireStep 0 10 initPoolState).1

/-!
Helper lemmas. -/

/-- A `filterMap` whose function is defined on every element keeps the
length. -/
lemma length_filterMap_of_isSome {α β : Type} (f : α → Option β) :
    ∀ (l : List α), (∀ a ∈ l, (f a).isSome = true) → (l.filterMap f).length = l.length := by
  intro l
  induction l with
  | nil => intro _; rfl
  | cons a t ih =>
    intro h
    obtain ⟨b, hb⟩ := Option.isSome_iff_exists.mp (h a (by simp))
    simp [List.filterMap_cons, hb, ih (fun x hx => h x (by simp [hx]))]

/-- The UID sort is a permutation. -/
lemma sortByUidDesc_perm (l : List EmailSummary) : (sortByUidDesc l).Perm l :=
  List.mergeSort_perm l _

/-- The UID sort keeps the length. -/
lemma sortByUidDesc_length (l : List EmailSummary) :
    (sortByUidDesc l).length = l.length :=
  List.length_mergeSort l

/-- The UID sort sorts by UID descending. -/
lemma sortByUidDesc_sorted (l : List EmailSummary) :
    List.Pairwise (fun x y : EmailSummary => y.uid ≤ x.uid) (sortByUidDesc l) := by
  have h := @List.sorted_mergeSort EmailSummary (fun x y => decide (y.uid ≤ x.uid))
    (by intro a b c h1 h2; simp at h1 h2 ⊢; omega)
    (by intro a b; simp; omega) l
  exact h.imp (by intro a b hab; simpa using hab)

/-- The UID sequence of a UID-sorted list is descending. -/
lemma sortByUidDesc_uids_sorted (l : List EmailSummary) :
    List.Pairwise (fun a b : Nat => b ≤ a) ((sortByUidDesc l).map (fun s => s.uid)) := by
  rw [List.pairwise_map]
  exact sortByUidDesc_sorted l

/-- The descending sort of match IDs is descending. -/
lemma sortDescNat_sorted (l : List Nat) :
    List.Pairwise (fun a b : Nat => b ≤ a) (sortDescNat l) := by
  have h := @List.sorted_mergeSort Nat (fun a b => decide (b ≤ a))
    (by intro a b c h1 h2; simp at h1 h2 ⊢; omega)
    (by intro a b; simp; omega) l
  exact h.imp (by intro a b hab; simpa using hab)

/-- A descending list with no duplicates is strictly descending. -/
lemma sorted_ge_nodup_strict {l : List Nat}
    (hs : List.Pairwise (fun a b : Nat => b ≤ a) l) (hn : l.Nodup) :
    List.Pairwise (fun a b : Nat => b < a) l :=
  (hs.and hn).imp (fun h => lt_of_le_of_ne h.1 (fun he => h.2 he.symm))

/-- The fetched page of `searchEmails` is descending. -/
lemma searchPage_sorted (results : List Nat) (limit offset : Nat) :
    List.Pairwise (fun a b : Nat => b ≤ a) (searchPage results limit offset) := by
  unfold searchPage
  split_ifs
  · exact List.Pairwise.nil
  · exact List.Pairwise.sublist
      ((List.take_sublist _ _).trans (List.drop_sublist _ _)) (sortDescNat_sorted results)

/-- The UID projection of the page fetch: when every page UID resolves to
attributes echoing that UID, the pre-sort summary list projects back to the
page. -/
lemma map_uid_filterMap (f : Folder) :
    ∀ (l : List Nat),
      (∀ u ∈ l, ∃ a, ((f.msgByUid u).attrs) = some a ∧ a.uid = some u) →
      ((l.filterMap (fun u => ((f.msgByUid u).attrs).map
          (fun a => mkSummary a (f.msgByUid u).body))).map (fun s => s.uid)) = l := by
  intro l
  induction l with
  | nil => intro _; rfl
  | cons u t ih =>
    intro h
    obtain ⟨a, ha, hu⟩ := h u (by simp)
    have htail := ih (fun x hx => h x (by simp [hx]))
    simp [List.filterMap_cons, ha, htail]
    simp [mkSummary, hu]

/-- Sorting by UID fixes a summary list whose UID projection is already a
descending list. -/
lemma sortByUidDesc_uids_eq {l : List EmailSummary} {p : List Nat}
    (hmap : l.map (fun s => s.uid) = p)
    (hp : List.Pairwise (fun a b : Nat => b ≤ a) p) :
    (sortByUidDesc l).map (fun s => s.uid) = p := by
  haveI : IsAntisymm Nat (fun a b : Nat => b ≤ a) := ⟨fun a b h1 h2 => le_antisymm h2 h1⟩
  refine List.eq_of_perm_of_sorted (r := fun a b : Nat => b ≤ a) ?_ ?_ ?_
  · exact (((sortByUidDesc_perm l).map (fun s => s.uid)).trans (by rw [hmap]))
  · exact sortByUidDesc_uids_sorted l
  · exact hp

/-- Spelled-out validity rule (the proposition behind `isConnectionValid`). -/
lemma isConnectionValid_iff (now : Int) (c : PooledConnection) :
    isConnectionValid now c = true ↔
      now - c.createdAt ≤ maxConnectionAge ∧
        (c.inUse = true ∨ now - c.lastUsed ≤ maxIdleTime) := by
  cases hc : c.inUse
  · simp only [isConnectionValid, hc]
    split_ifs <;> simp_all <;> omega
  · simp only [isConnectionValid, hc]
    split_ifs <;> simp_all <;> omega

/-- A reuse found by `tryReuse` was an idle valid member of the pool. -/
lemma tryReuse_mem {now : Int} :
    ∀ {l l2 : List PooledConnection} {i : Nat}, tryReuse now l = some (l2, i) →
      ∃ c ∈ l, c.id = i ∧ c.inUse = false ∧ isConnectionValid now c = true := by
  intro l
  induction l with
  | nil => intro l2 i h; simp [tryReuse] at h
  | cons c rest ih =>
    intro l2 i h
    unfold tryReuse at h
    by_cases hc : (!c.inUse && isConnectionValid now c) = true
    · rw [if_pos hc] at h
      simp only [Option.some.injEq, Prod.mk.injEq] at h
      obtain ⟨h1, h2⟩ := h
      simp only [Bool.and_eq_true, Bool.not_eq_true'] at hc
      exact ⟨c, by simp, h2.symm ▸ rfl, hc.1, hc.2⟩
    · rw [if_neg hc] at h
      rcases htr : tryReuse now rest with _ | ⟨rest2, j⟩ <;> rw [htr] at h
      · simp at h
      · simp only [Option.some.injEq, Prod.mk.injEq] at h
        obtain ⟨h1, h2⟩ := h
        obtain ⟨d, hd, hdi, hdu, hdv⟩ := ih htr
        exact ⟨d, by simp [hd], h2 ▸ hdi, hdu, hdv⟩

/-!
Claim theorems. -/

/-- C6: for every input string — including non-UTF-8 garbage, pure binary
and valid quoted-printable text — `cleanSnippet` never throws (it is a
total function: every decode step is modelled total, mirroring the
source's try/catch fallbacks, and each guarded step keeps the pre-step
text when its plausibility check fails), and the returned string never
exceeds 150 characters. -/
theorem claim_C6 (s : List Char) : (cleanSnippet s).length ≤ 150 := by
  simp only [cleanSnippet]
  rw [List.length_take]
  exact min_le_left _ _

/-- C7 counterexample: `deleteEmails` on an empty UID list does issue a
protocol command — it opens the folder read-write (SELECT) before the
empty-list check — so the claim's "without issuing any protocol command"
is false as stated. -/
theorem claim_C7_cex :
    (deleteEmails ("INBOX".toList) [] none none none).commands =
      [ImapCommand.openBox ("INBOX".toList) false] ∧
    (deleteEmails ("INBOX".toList) [] none none none).commands ≠ [] := by
  constructor
  · rfl
  · decide

/-- C7 (amended): for every folder, once the read-write folder open
succeeds, `deleteEmails` with an empty UID list resolves `true` and issues
no flag mutation and no expunge — the only protocol command issued is the
folder open itself. -/
theorem claim_C7 (folder : List Char) (flagErr expungeErr : Option (List Char)) :
    deleteEmails folder [] none flagErr expungeErr =
      ⟨Except.ok true, [ImapCommand.openBox folder false]⟩ ∧
    (deleteEmails folder [] none flagErr expungeErr).commands.all
      (fun c => match c with
        | ImapCommand.addFlags _ _ => false
        | ImapCommand.expunge => false
        | ImapCommand.openBox _ _ => true) = true :=
  ⟨rfl, rfl⟩

/-- C8: for every UID for which the server returns no message data,
`getEmailByUid` resolves with `null` (here `Except.ok none`) rather than
rejecting, whatever the MIME parser would do. -/
theorem claim_C8 (parse : List Nat → Except (List Char) ParsedMailModel)
    (server : Nat → Option RawMessage) (uid : Nat) (h : server uid = none) :
    getEmailByUid parse server uid = Except.ok none := by
  simp [getEmailByUid, h]

/-- C8 witness: a concrete server with no data for UID 7. -/
theorem claim_C8_witness :
    getEmailByUid (fun _ => Except.error []) (fun _ => none) 7 = Except.ok none :=
  claim_C8 (fun _ => Except.error []) (fun _ => none) 7 rfl

/-- C9: a pooled entry is valid to lend iff its age is within the 5-minute
max age and it is busy or idle no longer than the 60-second max idle
time. -/
theorem claim_C9 (c : PooledConnection) (now : Int) :
    isConnectionValid now c = true ↔
      now - c.createdAt ≤ 300000 ∧ (c.inUse = true ∨ now - c.lastUsed ≤ 60000) :=
  isConnectionValid_iff now c

/-- C2: the per-key cap can be exceeded — the claim (and the spec) are
right about the intended invariant and the code breaks it.  Starting from
a bucket with one busy valid connection, two concurrent `acquire` calls
at time 1 both run the synchronous prefix up to the
`await createConnection` suspension point: neither finds an idle
connection, and both pass the cap check (`1 < 2`) against the same
unchanged bucket.  When the two awaits resolve at time 2, each resumption
pushes its fresh connection with no re-check, leaving three live pooled
sessions for the key, above the cap of 2.  The queuing clause and the
FIFO hand-off of `release` are individually faithful synchronous paths;
the head invariant is what fails. -/
theorem claim_C2 :
    (acquireBeginStep 1 11 racedSt0).2 = AcquireBegin.awaitingCreate ∧
    (acquireBeginStep 1 12 ((acquireBeginStep 1 11 racedSt0).1)).2 =
      AcquireBegin.awaitingCreate ∧
    liveCount 2
      ((createResolveStep 2
        ((createResolveStep 2
          ((acquireBeginStep 1 12 ((acquireBeginStep 1 11 racedSt0).1)).1)).1)).1) = 3 ∧
    maxConnectionsPerKey < 3 := by
  refine ⟨by decide, by decide, by decide, by decide⟩

/-- C3 counterexample: two sessions created at times 0 and 1, a third
caller queued at time 2; releasing session 0 at time 300002 hands it to
the waiter even though its age 300002 exceeds the 300000 ms max age — so
the hand-off path of `release` can resolve an `acquire` with an over-age
session, contradicting the claim. -/
theorem claim_C3_cex :
    (releaseStep 300002 0 (([PoolEvent.acquire 0 10, PoolEvent.acquire 1 11,
        PoolEvent.acquire 2 12]).foldl poolStep initPoolState)).2 =
      ReleaseOutcome.handed 12 0 ∧
    (releaseStep 300002 0 (([PoolEvent.acquire 0 10, PoolEvent.acquire 1 11,
        PoolEvent.acquire 2 12]).foldl poolStep initPoolState)).1.pool.filter
        (fun c => c.id == 0) =
      [⟨0, true, 300002, 0⟩] ∧
    maxConnectionAge < 300002 - (0 : Int) := by
  refine ⟨by decide, by decide, by decide⟩

/-- C3 (amended): on the idle-reuse path and on the fresh-creation path,
every session resolved by `acquire` has age at most the max age at the
moment of acquisition (a reused session passed the validity check, a
fresh one has age 0); the hand-off-by-release path performs no age check
and can return a session of any age. -/
theorem claim_C3 (st : PoolState) (now : Int) (w : Nat) (st2 : PoolState) (i : Nat) :
    (acquireStep now w st = (st2, AcquireOutcome.reused i) →
      ∃ c ∈ st.pool, c.id = i ∧ c.inUse = false ∧ isConnectionValid now c = true ∧
        now - c.createdAt ≤ maxConnectionAge) ∧
    (acquireStep now w st = (st2, AcquireOutcome.created i) →
      ∃ c ∈ st2.pool, c.id = i ∧ c.createdAt = now ∧
        now - c.createdAt ≤ maxConnectionAge) := by
  constructor
  · intro h
    unfold acquireStep at h
    rcases htr : tryReuse now st.pool with _ | ⟨pool2, j⟩ <;> rw [htr] at h
    · split_ifs at h <;> simp at h
    · simp only [Prod.mk.injEq] at h
      obtain ⟨-, h2⟩ := h
      obtain ⟨c, hc, hci, hcu, hcv⟩ := tryReuse_mem htr
      have hage := ((isConnectionValid_iff now c).mp hcv).1
      cases h2
      exact ⟨c, hc, hci, hcu, hcv, hage⟩
  · intro h
    unfold acquireStep at h
    rcases htr : tryReuse now st.pool with _ | ⟨pool2, j⟩ <;> rw [htr] at h
    · split_ifs at h with hcap
      · simp only [Prod.mk.injEq] at h
        obtain ⟨h1, h2⟩ := h
        cases h2
        refine ⟨⟨st.nextId, true, now, now⟩, ?_, rfl, rfl, ?_⟩
        · rw [← h1]
          simp
        · show now - now ≤ maxConnectionAge
          simp [maxConnectionAge]
      · simp at h
    · simp only [Prod.mk.injEq] at h
      obtain ⟨-, h2⟩ := h
      simp at h2

/-- C3 witness: an idle valid session created at time 0 is reused at time
5, within the max age. -/
theorem claim_C3_witness :
    ∃ c ∈ (⟨[⟨0, false, 0, 0⟩], [], 1⟩ : PoolState).pool,
      c.id = 0 ∧ c.inUse = false ∧ isConnectionValid 5 c = true ∧
        5 - c.createdAt ≤ maxConnectionAge :=
  (claim_C3 ⟨[⟨0, false, 0, 0⟩], [], 1⟩ 5 9 ⟨[⟨0, true, 5, 0⟩], [], 1⟩ 0).1 (by decide)

/-- The UID sequence of every `getEmails` result is descending. -/
lemma getEmails_uids_sorted (f : Folder) (limit offset : Nat) :
    List.Pairwise (fun a b : Nat => b ≤ a) (resultUids (getEmails f limit offset)) := by
  unfold resultUids getEmails
  split_ifs <;> first
    | exact List.Pairwise.nil
    | exact sortByUidDesc_uids_sorted _

/-- The UID sequence of every `searchEmails` result is descending. -/
lemma searchEmails_uids_sorted (f : Folder) (limit offset : Nat) (results : List Nat) :
    List.Pairwise (fun a b : Nat => b ≤ a) (resultUids (searchEmails f limit offset results)) := by
  unfold resultUids searchEmails processSearchResults
  dsimp only
  split_ifs <;> first
    | exact List.Pairwise.nil
    | exact sortByUidDesc_uids_sorted _

unseal List.merge List.mergeSort in
/-- C5 counterexample: a fetch in which two messages deliver attributes
without a UID produces the UID sequence `[0, 0]` — both carry the sentinel
0 — which is not strictly descending, so the claim is false as stated. -/
theorem claim_C5_cex :
    ¬ List.Pairwise (fun a b : Nat => b < a) (resultUids (getEmails exDupFolder 25 0)) := by
  decide

/-- C5 (amended): the UID sequence of every `getEmails` or `searchEmails`
result is descending (the implementation buffers and sorts before
resolving, so this holds regardless of fetch-completion order), and it is
strictly descending whenever the returned UID values are pairwise
distinct; with the sentinel 0 standing in for missing UIDs, equal values
can repeat, so the strict form needs that distinctness. -/
theorem claim_C5 (f : Folder) (limit offset : Nat) (results : List Nat) :
    List.Pairwise (fun a b : Nat => b ≤ a) (resultUids (getEmails f limit offset)) ∧
    ((resultUids (getEmails f limit offset)).Nodup →
      List.Pairwise (fun a b : Nat => b < a) (resultUids (getEmails f limit offset))) ∧
    List.Pairwise (fun a b : Nat => b ≤ a) (resultUids (searchEmails f limit offset results)) ∧
    ((resultUids (searchEmails f limit offset results)).Nodup →
      List.Pairwise (fun a b : Nat => b < a) (resultUids (searchEmails f limit offset results))) :=
  ⟨getEmails_uids_sorted f limit offset,
    fun hn => sorted_ge_nodup_strict (getEmails_uids_sorted f limit offset) hn,
    searchEmails_uids_sorted f limit offset results,
    fun hn => sorted_ge_nodup_strict (searchEmails_uids_sorted f limit offset results) hn⟩

unseal List.merge List.mergeSort in
/-- C5 witness: a folder with two distinct UIDs 3 and 6 yields a strictly
descending UID sequence. -/
theorem claim_C5_witness :
    List.Pairwise (fun a b : Nat => b < a) (resultUids (getEmails exTwoFolder 25 0)) :=
  (claim_C5 exTwoFolder 25 0 []).2.1 (by decide)

unseal List.merge List.mergeSort in
/-- C10: within `getEmails` and `searchEmails`, the returned list is (up
to the final UID sort) exactly the fetched messages that delivered an
attributes record — a message whose attributes never arrive is silently
omitted, with no error — and each summary's UID is `attrs.uid` with the
sentinel `0` for a missing UID; the concrete conjunct shows two
UID-less messages both surfacing as UID `0` (a duplicated sentinel) while
the attribute-less first message is dropped. -/
theorem claim_C10 :
    (∀ (f : Folder) (limit offset : Nat),
      ((getEmails f limit offset).emails).Perm
        ((fetchSeqs f.total limit offset).filterMap
          (fun i => ((f.msg i).attrs).map (fun a => mkSummary a (f.msg i).body)))) ∧
    (∀ (f : Folder) (limit offset : Nat) (results : List Nat),
      ((searchEmails f limit offset results).emails).Perm
        ((if f.total = 0 then [] else searchPage results limit offset).filterMap
          (fun u => ((f.msgByUid u).attrs).map (fun a => mkSummary a (f.msgByUid u).body)))) ∧
    resultUids (getEmails exDupFolder 25 0) = [0, 0] := by
  refine ⟨?_, ?_, by decide⟩
  · intro f limit offset
    unfold getEmails fetchSeqs
    split_ifs <;> simp only [List.filterMap_nil]
    · exact List.Perm.refl []
    · exact List.Perm.refl []
    · exact sortByUidDesc_perm _
  · intro f limit offset results
    unfold searchEmails searchPage processSearchResults
    dsimp only
    split_ifs with h1 h2 h3
    · simp
    · simp
    · simp [List.isEmpty_iff.mp h3]
    · exact sortByUidDesc_perm _

unseal List.merge List.mergeSort in
/-- C1 counterexample: a one-message folder queried with `offset = 1`
(`offset ≥ total`) returns that one message, not an empty result — the
degenerate range is `start = end = 1`, which never trips the
invalid-range check — so the claim's "empty when offset ≥ total" is false
as stated. -/
theorem claim_C1_cex :
    (getEmails exOneFolder 25 1).emails.length = 1 ∧
    (getEmails exOneFolder 25 1).total = 1 ∧
    exOneFolder.total ≤ 1 := by
  refine ⟨by decide, by decide, by decide⟩

/-- C1 (amended): for a page request with `limit ≥ 1` against a server
that delivers attributes for every message, `getEmails` returns
`min(limit, total - offset)` messages with the correct total when
`offset < total`; when `offset ≥ total ≥ 1` the computed range degenerates
to `start = end = 1` — the invalid-range check (`end < 1` or
`start > total`) never fires — and the single oldest message is returned
with the correct total and `hasMore = false`; an empty folder returns the
empty result. -/
theorem claim_C1 (f : Folder) (limit offset : Nat) (hlim : 1 ≤ limit)
    (hattrs : ∀ i, 1 ≤ i → i ≤ f.total → ((f.msg i).attrs).isSome = true) :
    (offset < f.total →
      (getEmails f limit offset).emails.length = min limit (f.total - offset) ∧
      (getEmails f limit offset).total = f.total) ∧
    (1 ≤ f.total → f.total ≤ offset →
      (getEmails f limit offset).emails.length = 1 ∧
      (getEmails f limit offset).total = f.total ∧
      (getEmails f limit offset).hasMore = false) ∧
    (f.total = 0 → getEmails f limit offset = ⟨[], 0, false⟩) := by
  refine ⟨?_, ?_, ?_⟩
  · intro hofs
    have h0 : ¬ (f.total = 0) := by omega
    have hE : seqEnd f.total offset = f.total - offset := by
      simp only [seqEnd]; omega
    have hSle : seqStart f.total limit offset ≤ seqEnd f.total offset := by
      simp only [seqStart, seqEnd]; omega
    have hS1 : 1 ≤ seqStart f.total limit offset := by
      simp only [seqStart]; omega
    have hcond : ¬ (seqEnd f.total offset < 1 ∨ seqStart f.total limit offset > f.total) := by
      omega
    simp only [getEmails]
    rw [if_neg h0, if_neg hcond]
    dsimp only
    refine ⟨?_, rfl⟩
    rw [sortByUidDesc_length]
    rw [length_filterMap_of_isSome]
    · unfold seqRange
      rw [List.length_range']
      simp only [seqStart, seqEnd]
      omega
    · intro i hi
      unfold seqRange at hi
      rw [List.mem_range'_1] at hi
      obtain ⟨hia, hib⟩ := hi
      obtain ⟨a, ha⟩ := Option.isSome_iff_exists.mp (hattrs i (by omega) (by omega))
      simp [ha]
  · intro ht1 hofs
    have h0 : ¬ (f.total = 0) := by omega
    have hE : seqEnd f.total offset = 1 := by simp only [seqEnd]; omega
    have hS : seqStart f.total limit offset = 1 := by
      simp only [seqStart, seqEnd]; omega
    have hcond : ¬ (seqEnd f.total offset < 1 ∨ seqStart f.total limit offset > f.total) := by
      omega
    simp only [getEmails]
    rw [if_neg h0, if_neg hcond]
    rw [hE, hS]
    dsimp only
    have hr : seqRange 1 1 = [1] := rfl
    rw [hr]
    obtain ⟨a, ha⟩ := Option.isSome_iff_exists.mp (hattrs 1 (by omega) (by omega))
    refine ⟨?_, rfl, by decide⟩
    rw [sortByUidDesc_length]
    simp [List.filterMap_cons, ha]
  · intro h
    simp [getEmails, h]

/-- C1 witness: the spec's own scenario — a folder with 120 messages,
`limit = 50`, `offset = 0` — yields exactly 50 messages and the correct
total. -/
theorem claim_C1_witness :
    (getEmails exListFolder 50 0).emails.length = 50 ∧
    (getEmails exListFolder 50 0).total = 120 := by
  have h := (claim_C1 exListFolder 50 0 (by decide)
    (fun i h1 h2 => rfl)).1 (by decide)
  exact ⟨h.1.trans (by decide), h.2⟩

/-- C4 counterexample: with `limit = 0` and three matches, the sliced page
is empty, so the code resolves early with `hasMore = false`, while the
claim's `offset + limit < totalMatches` (`0 < 3`) demands `true` — the
claim is false as stated for a zero limit. -/
theorem claim_C4_cex :
    (searchEmails exSearchFolder 0 0 [2, 4, 1]).hasMore = false ∧
    0 + 0 < 3 := by
  refine ⟨by decide, by decide⟩

/-- C4 (amended, requiring a positive `limit`): for every search whose
match list the server answers, the match IDs are sorted descending and
sliced via `offset`/`limit` before any body content is fetched — the
returned UID sequence is exactly that sliced page when each page UID
resolves to attributes echoing it — the returned total equals the number
of matches, and `hasMore` is true iff `offset + limit < totalMatches`. -/
theorem claim_C4 (f : Folder) (limit offset : Nat) (results : List Nat)
    (hlim : 1 ≤ limit) (htot : 1 ≤ f.total)
    (hattrs : ∀ u ∈ searchPage results limit offset,
      ∃ a, ((f.msgByUid u).attrs) = some a ∧ a.uid = some u) :
    (searchEmails f limit offset results).total = results.length ∧
    (searchEmails f limit offset results).hasMore =
      decide (offset + limit < results.length) ∧
    resultUids (searchEmails f limit offset results) = searchPage results limit offset := by
  have h0 : ¬ (f.total = 0) := by omega
  unfold searchEmails
  rw [if_neg h0]
  by_cases hres : results.isEmpty = true
  · have hrnil : results = [] := List.isEmpty_iff.mp hres
    subst hrnil
    refine ⟨rfl, by simp [processSearchResults], rfl⟩
  · have hresf : results.isEmpty = false := by
      cases h : results.isEmpty
      · rfl
      · exact absurd h hres
    unfold processSearchResults
    rw [hresf]
    simp only [Bool.false_eq_true, if_false]
    have hlen : (sortDescNat results).length = results.length :=
      List.length_mergeSort results
    have hpagdef : searchPage results limit offset =
        ((sortDescNat results).drop offset).take limit := by
      unfold searchPage
      rw [hresf]
      simp only [Bool.false_eq_true, if_false]
    by_cases hpag : (((sortDescNat results).drop offset).take limit).isEmpty = true
    · have hpnil := List.isEmpty_iff.mp hpag
      rw [hpag]
      simp only [if_true]
      have hdrop : (sortDescNat results).length ≤ offset := by
        rcases List.take_eq_nil_iff.mp hpnil with h | h
        · omega
        · exact List.drop_eq_nil_iff.mp h
      refine ⟨hlen, ?_, ?_⟩
      · have : ¬ (offset + limit < results.length) := by omega
        simp [this]
      · rw [hpagdef, hpnil]
        rfl
    · have hpagf : (((sortDescNat results).drop offset).take limit).isEmpty = false := by
        cases h : (((sortDescNat results).drop offset).take limit).isEmpty
        · rfl
        · exact absurd h hpag
      rw [hpagf]
      simp only [Bool.false_eq_true, if_false]
      refine ⟨hlen, by rw [hlen], ?_⟩
      unfold resultUids
      dsimp only
      rw [hpagdef]
      refine sortByUidDesc_uids_eq ?_ ?_
      · refine map_uid_filterMap f _ ?_
        intro u hu
        refine hattrs u ?_
        rw [hpagdef]
        exact hu
      · exact List.Pairwise.sublist
          ((List.take_sublist _ _).trans (List.drop_sublist _ _)) (sortDescNat_sorted results)

unseal List.merge List.mergeSort in
/-- C4 witness: the spec's scenario — 3 subject matches with `limit = 25`,
`offset = 0` — yields total 3, `hasMore = false`, and exactly the 3
matches, UID-descending. -/
theorem claim_C4_witness :
    (searchEmails exSearchFolder 25 0 [2, 4, 1]).total = 3 ∧
    (searchEmails exSearchFolder 25 0 [2, 4, 1]).hasMore = false ∧
    resultUids (searchEmails exSearchFolder 25 0 [2, 4, 1]) = [4, 2, 1] := by
  have h := claim_C4 exSearchFolder 25 0 [2, 4, 1] (by decide) (by decide)
    (fun u hu => ⟨blankAttrs (some u), rfl, rfl⟩)
  exact ⟨h.1, h.2.1.trans (by decide), h.2.2.trans (by decide)⟩
